import Mathlib

/-!
Verification of the todoist-cli task controller.

Shallow embedding of the repository's core:
* `src/models/task.rs` — the `Task` value.
* `src/controller/app.rs` — the `App` state (task list, id allocator,
  selection, mode, input buffer) and its operations.
* `src/db/cache.rs` — the SQLite-backed `Cache` (`save_tasks`/`load_tasks`).
* `src/main.rs` — the insert-mode key dispatch of `run_app`.

Remote API calls (`src/api/client.rs`) and the fallible cache save are
modelled as oracle parameters of type `Except String _`: the value such a
call returned (anyhow errors are modelled by their message).  Each operation
returns the pair of its `AppResult` and the post-state.
-/

namespace TodoistCli

/-- A Todoist task (src/models/task.rs): local id, optional remote id,
title, completion flag. -/
structure Task where
  id : Nat
  todoist_id : Option String
  title : String
  checked : Bool
deriving DecidableEq, Repr

/-- `Task::new` (src/models/task.rs): a local-only task, no remote id. -/
def Task.mk' (id : Nat) (title : String) (checked : Bool) : Task :=
  ⟨id, none, title, checked⟩

/-- TUI mode (src/controller/app.rs, `enum Mode`). -/
inductive Mode where
  | Normal
  | InsertAdd
  | InsertEdit
deriving DecidableEq, Repr

/-- Application state (src/controller/app.rs, `struct App`).
`selected` is `list_state.selected()`; `store` is the task collection last
successfully written to the durable cache (plus the initially loaded one).
A failed save leaves the real table in a partial state; the model keeps the
previous value of `store` in that case, and no theorem below inspects
`store` after a failed save. -/
structure App where
  tasks : List Task
  next_id : Nat
  selected : Option Nat
  mode : Mode
  input_buffer : String
  store : List Task
deriving DecidableEq, Repr

/-- `title.trim().is_empty()`: the title is empty or all whitespace.
(`str::trim` strips leading and trailing whitespace, so the result is empty
exactly when every character is whitespace.) -/
def isBlank (s : String) : Bool :=
  s.data.all Char.isWhitespace

/-- The three placeholder tasks installed when the cache is empty
(src/controller/app.rs lines 32-36). -/
def placeholderTasks : List Task :=
  [Task.mk' 1 "Buy Milk" false, Task.mk' 2 "Write Code" false,
   Task.mk' 3 "Fix Bugs" false]

/-- `App::new` (src/controller/app.rs lines 28-52).  `loadR` is the result of
`cache.load_tasks()`; a `Cache::new` failure propagates through the same `?`
and is modelled the same way.  `next_id` is
`tasks.iter().map(|t| t.id).max().unwrap_or(0) + 1`. -/
def App.new (loadR : Except String (List Task)) : Except String App :=
  match loadR with
  | .error e => .error e
  | .ok loaded =>
    let tasks := if loaded.isEmpty then placeholderTasks else loaded
    let selected := if !tasks.isEmpty then some 0 else none
    let next_id := (tasks.map Task.id).foldr max 0 + 1
    .ok { tasks := tasks, next_id := next_id, selected := selected,
          mode := .Normal, input_buffer := "", store := loaded }

/-- The id-assignment loop of `App::sync_tasks`:
`for (i, mut task) in api_tasks.into_iter().enumerate() { task.id = self.next_id + i; ... }`. -/
def assignIds (n : Nat) : List Task → List Task
  | [] => []
  | t :: ts => { t with id := n } :: assignIds (n + 1) ts

/-- `App::sync_tasks` (src/controller/app.rs lines 55-69).  `fetchR` is the
result of `api_client.fetch_tasks()`, `saveR` of `cache.save_tasks`. -/
def sync_tasks (fetchR : Except String (List Task)) (saveR : Except String Unit)
    (s : App) : Except String Unit × App :=
  match fetchR with
  | .error e => (.error e, s)
  | .ok api_tasks =>
    let tasks := assignIds s.next_id api_tasks
    let s1 := { s with next_id := s.next_id + tasks.length, tasks := tasks }
    match saveR with
    | .error e => (.error e, s1)
    | .ok _ =>
      let s2 := { s1 with store := tasks }
      if !s2.tasks.isEmpty && s2.selected.isNone then
        (.ok (), { s2 with selected := some 0 })
      else
        (.ok (), s2)

/-- `App::add_task` (src/controller/app.rs lines 72-82).  `createR` is the
result of `api_client.add_task(title)` (the returned task whose local id the
caller overwrites with `next_id`). -/
def add_task (createR : Except String Task) (saveR : Except String Unit)
    (title : String) (s : App) : Except String Unit × App :=
  if !isBlank title then
    match createR with
    | .error e => (.error e, s)
    | .ok t =>
      let task := { t with id := s.next_id }
      let tasks := s.tasks ++ [task]
      let s1 := { s with tasks := tasks, next_id := s.next_id + 1,
                         selected := some (tasks.length - 1) }
      match saveR with
      | .error e => (.error e, s1)
      | .ok _ => (.ok (), { s1 with store := tasks })
  else
    (.ok (), s)

/-- `iter_mut().find(|t| t.id == id)` followed by `task.title = title`:
replace the title of the first task carrying the given id. -/
def updateFirst (id : Nat) (title : String) : List Task → List Task
  | [] => []
  | t :: ts =>
    if t.id = id then { t with title := title } :: ts
    else t :: updateFirst id title ts

/-- `App::update_task` (src/controller/app.rs lines 85-94).  `updR` is the
result of `api_client.update_task(..)`. -/
def update_task (updR : Except String Unit) (saveR : Except String Unit)
    (id : Nat) (title : String) (s : App) : Except String Unit × App :=
  if (s.tasks.find? (fun t => t.id == id)).isSome then
    if !isBlank title then
      match updR with
      | .error e => (.error e, s)
      | .ok _ =>
        let tasks := updateFirst id title s.tasks
        let s1 := { s with tasks := tasks }
        match saveR with
        | .error e => (.error e, s1)
        | .ok _ => (.ok (), { s1 with store := tasks })
    else
      (.ok (), s)
  else
    (.ok (), s)

/-- `iter().position(|t| t.id == id)` of src/controller/app.rs line 98. -/
def position (p : Task → Bool) : List Task → Option Nat
  | [] => none
  | t :: ts => if p t then some 0 else (position p ts).map (· + 1)

/-- `App::delete_task` (src/controller/app.rs lines 97-111).  `delR` is the
result of `api_client.delete_task(..)`.  Note the source saves before it
repairs the selection, and `saturating_sub(1)` on `usize` is truncated
subtraction on `Nat`. -/
def delete_task (delR : Except String Unit) (saveR : Except String Unit)
    (id : Nat) (s : App) : Except String Unit × App :=
  match position (fun t => t.id == id) s.tasks with
  | none => (.ok (), s)
  | some index =>
    match delR with
    | .error e => (.error e, s)
    | .ok _ =>
      let tasks := s.tasks.eraseIdx index
      let s1 := { s with tasks := tasks }
      match saveR with
      | .error e => (.error e, s1)
      | .ok _ =>
        let s2 := { s1 with store := tasks }
        if s2.tasks.isEmpty then
          (.ok (), { s2 with selected := none })
        else if index ≤ s2.selected.getD 0 then
          (.ok (), { s2 with selected := some (s2.selected.getD 1 - 1) })
        else
          (.ok (), s2)

/-- `App::next` (src/controller/app.rs lines 114-124). -/
def next (s : App) : App :=
  if s.tasks.isEmpty then { s with selected := none }
  else
    let i := match s.selected with
      | some i => (i + 1) % s.tasks.length
      | none => 0
    { s with selected := some i }

/-- `App::previous` (src/controller/app.rs lines 127-143). -/
def previous (s : App) : App :=
  if s.tasks.isEmpty then { s with selected := none }
  else
    let i := match s.selected with
      | some i => if i = 0 then s.tasks.length - 1 else i - 1
      | none => 0
    { s with selected := some i }

/-- `App::enter_insert_add_mode` (src/controller/app.rs lines 146-149). -/
def enter_insert_add_mode (s : App) : App :=
  { s with input_buffer := "", mode := .InsertAdd }

/-- `App::enter_insert_edit_mode` (src/controller/app.rs lines 152-160). -/
def enter_insert_edit_mode (s : App) : App :=
  let buf := match s.selected with
    | some i =>
      match s.tasks.get? i with
      | some t => t.title
      | none => ""
    | none => ""
  { s with input_buffer := buf, mode := .InsertEdit }

/-- `App::handle_input` (src/controller/app.rs lines 190-192). -/
def handle_input (c : Char) (s : App) : App :=
  { s with input_buffer := s.input_buffer.push c }

/-- `App::handle_backspace` (src/controller/app.rs lines 195-197):
`String::pop` removes the last character. -/
def handle_backspace (s : App) : App :=
  { s with input_buffer := s.input_buffer.dropRight 1 }

/-- `App::exit_insert_mode` (src/controller/app.rs lines 163-187).  On an
error from the inner add/update the `?` returns early, so mode and buffer
are NOT reset in that case. -/
def exit_insert_mode (createR : Except String Task) (updR : Except String Unit)
    (saveR : Except String Unit) (s : App) : Except String Unit × App :=
  let input := s.input_buffer
  let r :=
    if !isBlank input then
      match s.mode with
      | .InsertAdd => add_task createR saveR input s
      | .InsertEdit =>
        match s.selected with
        | some i =>
          match s.tasks.get? i with
          | some task => update_task updR saveR task.id input s
          | none => add_task createR saveR input s
        | none => add_task createR saveR input s
      | .Normal => (.ok (), s)
    else
      (.ok (), s)
  match r with
  | (Except.error e, s1) => (.error e, s1)
  | (Except.ok _, s1) => (.ok (), { s1 with mode := .Normal, input_buffer := "" })

/-- The key codes handled by the insert-mode arm of `run_app`
(src/main.rs lines 96-102); `other` is the wildcard arm. -/
inductive KeyCode where
  | enter
  | esc
  | char (c : Char)
  | backspace
  | other
deriving DecidableEq, Repr

/-- The `Mode::InsertAdd | Mode::InsertEdit` key dispatch of `run_app`
(src/main.rs lines 96-102): Enter and Esc both call `exit_insert_mode`. -/
def insertStep (code : KeyCode) (createR : Except String Task)
    (updR : Except String Unit) (saveR : Except String Unit)
    (s : App) : Except String Unit × App :=
  match code with
  | .enter => exit_insert_mode createR updR saveR s
  | .esc => exit_insert_mode createR updR saveR s
  | .char c => (.ok (), handle_input c s)
  | .backspace => (.ok (), handle_backspace s)
  | .other => (.ok (), s)

/-- A persisted row of the cache's `tasks` table (src/db/cache.rs:
`id INTEGER PRIMARY KEY, todoist_id TEXT NOT NULL, title TEXT NOT NULL,
checked INTEGER NOT NULL`). -/
structure Row where
  id : Nat
  todoist_id : String
  title : String
  checked : Int
deriving DecidableEq, Repr

/-- Insert a row into the table.  `id` is the `INTEGER PRIMARY KEY`, i.e.
the rowid, so the B-tree keeps rows in ascending `id` order and a full scan
returns them in that order. -/
def insertRow (r : Row) : List Row → List Row
  | [] => [r]
  | x :: xs => if r.id < x.id then r :: x :: xs else x :: insertRow r xs

/-- The INSERT loop of `Cache::save_tasks` (src/db/cache.rs lines 45-50):
one row per task, in list order; binding a `None` `todoist_id` inserts NULL
and violates `todoist_id TEXT NOT NULL`; a duplicate `id` violates the
PRIMARY KEY.  A failing `execute` returns its error through `?` with the
rows inserted so far still in the table (there is no transaction). -/
def saveLoop : List Task → List Row → Except String Unit × List Row
  | [], rows => (.ok (), rows)
  | t :: ts, rows =>
    match t.todoist_id with
    | none => (.error "NOT NULL constraint failed: tasks.todoist_id", rows)
    | some tid =>
      if rows.any (fun x => x.id == t.id) then
        (.error "UNIQUE constraint failed: tasks.id", rows)
      else
        saveLoop ts (insertRow ⟨t.id, tid, t.title, if t.checked then 1 else 0⟩ rows)

/-- `Cache::save_tasks` (src/db/cache.rs lines 43-52): `DELETE FROM tasks`
then the insert loop; returns the result and the table contents. -/
def save_tasks (tasks : List Task) : Except String Unit × List Row :=
  saveLoop tasks []

/-- `Cache::load_tasks` (src/db/cache.rs lines 55-68): full scan of the
table (rowid order), decoding `checked` as `!= 0`; the NOT NULL
`todoist_id` column always yields `Some`. -/
def load_tasks (rows : List Row) : List Task :=
  rows.map (fun r => ⟨r.id, some r.todoist_id, r.title, r.checked != 0⟩)

/-- Row a task is encoded as by a successful `save_tasks` insert. -/
def encodeRow (t : Task) : Row :=
  ⟨t.id, t.todoist_id.getD "", t.title, if t.checked then 1 else 0⟩

/-- The selection invariant of the spec: a present selection is a valid
index into the task collection, and the selection is absent only when the
collection is empty. -/
def selOk (s : App) : Prop :=
  match s.selected with
  | some i => i < s.tasks.length
  | none => s.tasks = []

instance selOkDecidable (s : App) : Decidable (selOk s) :=
  match hs : s.selected with
  | some i =>
    if h : i < s.tasks.length then
      .isTrue (by simp [selOk, hs, h])
    else
      .isFalse (by simp [selOk, hs, h])
  | none =>
    if h : s.tasks = [] then
      .isTrue (by simp [selOk, hs, h])
    else
      .isFalse (by simp [selOk, hs, h])

/-- Concrete fixture task `A` (local id 1, synced). -/
def tA : Task := ⟨1, some "rA", "A", false⟩

/-- Concrete fixture task `B` (local id 2, synced). -/
def tB : Task := ⟨2, some "rB", "B", false⟩

/-- Concrete fixture task `C` (local id 3, synced). -/
def tC : Task := ⟨3, some "rC", "C", false⟩

/-- Fixture state holding `[A, B, C]` with the given selection. -/
def appABC (sel : Option Nat) : App :=
  { tasks := [tA, tB, tC], next_id := 4, selected := sel, mode := .Normal,
    input_buffer := "", store := [tA, tB, tC] }

/-! ### Helper lemmas -/

lemma assignIds_length (n : Nat) (l : List Task) :
    (assignIds n l).length = l.length := by
  induction l generalizing n with
  | nil => rfl
  | cons t ts ih => simp [assignIds, ih]

lemma assignIds_map_id (n : Nat) (l : List Task) :
    (assignIds n l).map Task.id = List.range' n l.length := by
  induction l generalizing n with
  | nil => rfl
  | cons t ts ih => simp [assignIds, List.range', ih]

lemma assignIds_map_title (n : Nat) (l : List Task) :
    (assignIds n l).map Task.title = l.map Task.title := by
  induction l generalizing n with
  | nil => rfl
  | cons t ts ih => simp [assignIds, ih]

lemma updateFirst_length (id : Nat) (title : String) (l : List Task) :
    (updateFirst id title l).length = l.length := by
  induction l with
  | nil => rfl
  | cons t ts ih =>
    by_cases h : t.id = id <;> simp [updateFirst, h, ih]

lemma position_lt_length {p : Task → Bool} {l : List Task} {i : Nat}
    (h : position p l = some i) : i < l.length := by
  induction l generalizing i with
  | nil => simp [position] at h
  | cons t ts ih =>
    by_cases hp : p t
    · simp [position, hp] at h
      simp only [List.length_cons]
      omega
    · simp [position, hp] at h
      obtain ⟨j, hj, rfl⟩ := h
      have := ih hj
      simp only [List.length_cons]
      omega

lemma find?_id_isSome_of_get? {l : List Task} {i : Nat} {task : Task}
    (h : l.get? i = some task) :
    (l.find? (fun t => t.id == task.id)).isSome = true := by
  rw [List.find?_isSome]
  exact ⟨task, List.get?_mem h, by simp⟩

lemma insertRow_append (r : Row) (rows : List Row)
    (h : ∀ x ∈ rows, x.id < r.id) :
    insertRow r rows = rows ++ [r] := by
  induction rows with
  | nil => rfl
  | cons x xs ih =>
    have hx : ¬ r.id < x.id := by
      have := h x (by simp)
      omega
    simp only [insertRow, if_neg hx, List.cons_append]
    rw [ih (fun y hy => h y (by simp [hy]))]

lemma saveLoop_ok (l : List Task) (rows : List Row)
    (hp : l.Pairwise (fun a b => a.id < b.id))
    (hs : ∀ t ∈ l, t.todoist_id.isSome = true)
    (hr : ∀ x ∈ rows, ∀ t ∈ l, x.id < t.id) :
    saveLoop l rows = (.ok (), rows ++ l.map encodeRow) := by
  induction l generalizing rows with
  | nil => simp [saveLoop]
  | cons t ts ih =>
    obtain ⟨tid, htid⟩ := Option.isSome_iff_exists.mp (hs t (by simp))
    have hany : rows.any (fun x => x.id == t.id) = false := by
      rw [List.any_eq_false]
      intro x hx
      have := hr x hx t (by simp)
      simp
      omega
    rw [saveLoop, htid]
    simp only [hany, Bool.false_eq_true, if_false]
    have happ : insertRow ⟨t.id, tid, t.title, if t.checked then 1 else 0⟩ rows
        = rows ++ [⟨t.id, tid, t.title, if t.checked then 1 else 0⟩] :=
      insertRow_append _ _ (fun x hx => hr x hx t (by simp))
    rw [happ]
    have hr' : ∀ x ∈ rows ++ [(⟨t.id, tid, t.title, if t.checked then 1 else 0⟩ : Row)],
        ∀ u ∈ ts, x.id < u.id := by
      intro x hx u hu
      rcases List.mem_append.mp hx with hx' | hx'
      · exact hr x hx' u (by simp [hu])
      · have hx'' : x = ⟨t.id, tid, t.title, if t.checked then 1 else 0⟩ := by
          simpa using hx'
        subst hx''
        exact (List.pairwise_cons.mp hp).1 u hu
    rw [ih _ (List.pairwise_cons.mp hp).2 (fun u hu => hs u (by simp [hu])) hr']
    have henc : encodeRow t = ⟨t.id, tid, t.title, if t.checked then 1 else 0⟩ := by
      simp [encodeRow, htid]
    simp [henc]

lemma load_map_encode (l : List Task)
    (hs : ∀ t ∈ l, t.todoist_id.isSome = true) :
    load_tasks (l.map encodeRow) = l := by
  induction l with
  | nil => rfl
  | cons t ts ih =>
    obtain ⟨tid0, otid, ttitle, tchecked⟩ := t
    obtain ⟨tid, htid⟩ := Option.isSome_iff_exists.mp
      (show otid.isSome = true from hs ⟨tid0, otid, ttitle, tchecked⟩ (by simp))
    subst htid
    have htail := ih (fun u hu => hs u (by simp [hu]))
    simp only [load_tasks, List.map_cons] at htail ⊢
    rw [htail]
    cases tchecked <;> simp [encodeRow]

lemma sync_ok_tasks (fetched : List Task) (saveR : Except String Unit) (s : App) :
    (sync_tasks (.ok fetched) saveR s).2.tasks = assignIds s.next_id fetched := by
  cases saveR with
  | error e => rfl
  | ok u =>
    unfold sync_tasks
    dsimp only
    split <;> rfl

lemma sync_ok_next_id (fetched : List Task) (saveR : Except String Unit) (s : App) :
    (sync_tasks (.ok fetched) saveR s).2.next_id
      = s.next_id + (assignIds s.next_id fetched).length := by
  cases saveR with
  | error e => rfl
  | ok u =>
    unfold sync_tasks
    dsimp only
    split <;> rfl

lemma selOk_def (s : App) :
    selOk s ↔ (∀ i, s.selected = some i → i < s.tasks.length) ∧
      (s.selected = none → s.tasks = []) := by
  unfold selOk
  rcases hsel : s.selected with _ | i <;> simp [hsel]

lemma selOk_new (loaded : List Task) (t : App)
    (h : App.new (.ok loaded) = .ok t) : selOk t := by
  cases loaded with
  | nil =>
    simp only [App.new, placeholderTasks] at h
    simp only [Except.ok.injEq] at h
    subst h
    decide
  | cons a l =>
    simp only [App.new, List.isEmpty_cons, Bool.not_false, if_true,
      Except.ok.injEq] at h
    subst h
    rw [selOk_def]
    refine ⟨?_, ?_⟩
    · intro i hi
      simp at hi ⊢
      omega
    · intro hnone
      simp at hnone

lemma selOk_add (createR : Except String Task) (saveR : Except String Unit)
    (title : String) (s : App) (hs : selOk s) :
    selOk (add_task createR saveR title s).2 := by
  unfold add_task
  by_cases hb : isBlank title
  · simpa [hb] using hs
  · simp only [Bool.not_eq_true] at hb
    cases createR with
    | error e => simpa [hb] using hs
    | ok t =>
      cases saveR with
      | error e =>
        simp only [hb, Bool.not_false, if_true]
        rw [selOk_def]
        constructor
        · intro i hi
          simp at hi ⊢
          omega
        · intro hnone
          simp at hnone
      | ok u =>
        simp only [hb, Bool.not_false, if_true]
        rw [selOk_def]
        constructor
        · intro i hi
          simp at hi ⊢
          omega
        · intro hnone
          simp at hnone

lemma selOk_update (updR saveR : Except String Unit) (id : Nat) (title : String)
    (s : App) (hs : selOk s) :
    selOk (update_task updR saveR id title s).2 := by
  have hcore : ∀ store' : List Task,
      selOk { s with tasks := updateFirst id title s.tasks, store := store' } := by
    intro store'
    rw [selOk_def] at hs ⊢
    refine ⟨?_, ?_⟩
    · intro i hi
      simp only at hi
      rw [updateFirst_length]
      exact hs.1 i hi
    · intro hnone
      simp only at hnone
      rw [hs.2 hnone]
      rfl
  unfold update_task
  by_cases hf : (s.tasks.find? (fun t => t.id == id)).isSome
  · by_cases hb : isBlank title
    · simpa [hf, hb] using hs
    · simp only [Bool.not_eq_true] at hb
      cases updR with
      | error e => simpa [hf, hb] using hs
      | ok u =>
        cases saveR with
        | error e => simpa [hf, hb] using hcore s.store
        | ok u2 => simpa [hf, hb] using hcore (updateFirst id title s.tasks)
  · simp only [Bool.not_eq_true] at hf
    simpa [hf] using hs

lemma selOk_delete (delR : Except String Unit) (id : Nat) (s : App)
    (hs : selOk s) :
    selOk (delete_task delR (.ok ()) id s).2 := by
  unfold delete_task
  rcases hpos : position (fun t => t.id == id) s.tasks with _ | index
  · exact hs
  · have hlen : index < s.tasks.length := position_lt_length hpos
    cases delR with
    | error e => exact hs
    | ok u =>
      dsimp only
      have hlen2 : (s.tasks.eraseIdx index).length = s.tasks.length - 1 := by
        rw [List.length_eraseIdx]
        simp [hlen]
      by_cases hemp : (s.tasks.eraseIdx index).isEmpty
      · simp only [hemp, if_true]
        rw [selOk_def]
        refine ⟨by intro i hi; simp at hi, ?_⟩
        intro _
        simpa [List.isEmpty_iff] using hemp
      · have hpos0 : 0 < (s.tasks.eraseIdx index).length := by
          rcases Nat.eq_zero_or_pos (s.tasks.eraseIdx index).length with h0 | h0
          · rw [List.length_eq_zero] at h0
            rw [h0] at hemp
            simp at hemp
          · exact h0
        rcases hsel : s.selected with _ | sel
        · have : s.tasks = [] := ((selOk_def s).mp hs).2 hsel
          rw [this] at hpos
          simp [position] at hpos
        · have hsellt : sel < s.tasks.length := ((selOk_def s).mp hs).1 sel hsel
          by_cases hle : index ≤ sel
          · simp only [hemp, Bool.false_eq_true, if_false, hsel, Option.getD_some,
              hle, if_true]
            rw [selOk_def]
            refine ⟨?_, by intro h; simp at h⟩
            intro i hi
            simp only [Option.some.injEq] at hi
            subst hi
            simp only [hlen2]
            omega
          · simp only [hemp, Bool.false_eq_true, if_false, hsel, Option.getD_some,
              hle, if_false]
            rw [selOk_def]
            refine ⟨?_, by intro h; simp [hsel] at h⟩
            intro i hi
            simp only [hsel, Option.some.injEq] at hi
            subst hi
            simp only [hlen2]
            omega

lemma selOk_sync (fetched : List Task) (s : App) (_hs : selOk s)
    (hfit : s.selected = none ∨ ∃ i, s.selected = some i ∧ i < fetched.length) :
    selOk (sync_tasks (.ok fetched) (.ok ()) s).2 := by
  unfold sync_tasks
  dsimp only
  rcases hfit with hnone | ⟨i, hsel, hi⟩
  · by_cases hemp : (assignIds s.next_id fetched).isEmpty
    · simp only [hnone, Option.isNone_none, Bool.and_true, hemp, Bool.not_true,
        Bool.false_eq_true, if_false]
      rw [selOk_def]
      refine ⟨by intro i hi; simp [hnone] at hi, ?_⟩
      intro _
      simpa [List.isEmpty_iff] using hemp
    · simp only [hnone, Option.isNone_none, Bool.and_true, hemp, Bool.not_false,
        if_true]
      rw [selOk_def]
      refine ⟨?_, by intro h; simp at h⟩
      intro j hj
      simp only [Option.some.injEq] at hj
      subst hj
      rcases Nat.eq_zero_or_pos (assignIds s.next_id fetched).length with h0 | h0
      · rw [List.length_eq_zero] at h0
        rw [h0] at hemp
        simp at hemp
      · exact h0
  · simp only [hsel, Option.isNone_some, Bool.and_false, Bool.false_eq_true,
      if_false]
    rw [selOk_def]
    refine ⟨?_, by intro h; simp [hsel] at h⟩
    intro j hj
    simp only [hsel, Option.some.injEq] at hj
    subst hj
    rw [assignIds_length]
    exact hi

lemma selOk_next (s : App) (_hs : selOk s) : selOk (next s) := by
  unfold next
  by_cases hemp : s.tasks.isEmpty
  · simp only [hemp, if_true]
    rw [selOk_def]
    exact ⟨by intro i hi; simp at hi, fun _ => List.isEmpty_iff.mp hemp⟩
  · have hpos : 0 < s.tasks.length := by
      rcases Nat.eq_zero_or_pos s.tasks.length with h0 | h0
      · rw [List.length_eq_zero] at h0
        rw [h0] at hemp
        simp at hemp
      · exact h0
    simp only [hemp, Bool.false_eq_true, if_false]
    rw [selOk_def]
    refine ⟨?_, by intro h; simp at h⟩
    intro j hj
    simp only [Option.some.injEq] at hj
    subst hj
    rcases s.selected with _ | i
    · simpa using hpos
    · simpa using Nat.mod_lt _ hpos

lemma selOk_previous (s : App) (hs : selOk s) : selOk (previous s) := by
  unfold previous
  by_cases hemp : s.tasks.isEmpty
  · simp only [hemp, if_true]
    rw [selOk_def]
    exact ⟨by intro i hi; simp at hi, fun _ => List.isEmpty_iff.mp hemp⟩
  · have hpos : 0 < s.tasks.length := by
      rcases Nat.eq_zero_or_pos s.tasks.length with h0 | h0
      · rw [List.length_eq_zero] at h0
        rw [h0] at hemp
        simp at hemp
      · exact h0
    simp only [hemp, Bool.false_eq_true, if_false]
    rw [selOk_def]
    refine ⟨?_, by intro h; simp at h⟩
    intro j hj
    rcases hsel : s.selected with _ | i
    · simp only [hsel, Option.some.injEq] at hj
      subst hj
      exact hpos
    · have hilt : i < s.tasks.length := ((selOk_def s).mp hs).1 i hsel
      simp only [hsel, Option.some.injEq] at hj
      subst hj
      by_cases hz : i = 0
      · simp only [hz, if_true]
        omega
      · simp only [hz, if_false]
        omega

lemma length_eraseIdx_lt (l : List Task) (i : Nat) (h : i < l.length) :
    (l.eraseIdx i).length = l.length - 1 := by
  rw [List.length_eraseIdx]
  simp [h]

lemma isEmpty_false_of_length_pos (l : List Task) (h : 0 < l.length) :
    l.isEmpty = false := by
  cases l with
  | nil => simp at h
  | cons a t => rfl

/-! ### Claim theorems -/

/-- C1: for each mutating operation `add_task`, `update_task` and
`delete_task`, when the remote call fails (the API oracle returns an error)
the operation is atomic: the result is exactly that error and the post-state
equals the pre-state — task collection, selection, id allocator and durable
store all unchanged.  The hypotheses state that the remote call is actually
reached: the title is non-blank and, for update/delete, the target id is
present. -/
theorem add_update_delete_atomic_on_remote_failure
    (s : App) (title : String) (id : Nat) (e : String)
    (saveA saveU saveD : Except String Unit)
    (htitle : isBlank title = false)
    (hfound : (s.tasks.find? (fun t => t.id == id)).isSome = true)
    (hpos : (position (fun t => t.id == id) s.tasks).isSome = true) :
    add_task (.error e) saveA title s = (.error e, s) ∧
    update_task (.error e) saveU id title s = (.error e, s) ∧
    delete_task (.error e) saveD id s = (.error e, s) := by
  refine ⟨?_, ?_, ?_⟩
  · simp [add_task, htitle]
  · simp [update_task, hfound, htitle]
  · obtain ⟨index, hidx⟩ := Option.isSome_iff_exists.mp hpos
    simp [delete_task, hidx]

/-- Witness for C1 at a concrete state: three tasks, the remote returning a
transport error. -/
theorem add_update_delete_atomic_on_remote_failure_witness :
    add_task (.error "network unreachable") (.ok ()) "x" (appABC (some 0))
      = (.error "network unreachable", appABC (some 0)) ∧
    update_task (.error "network unreachable") (.ok ()) 2 "x" (appABC (some 0))
      = (.error "network unreachable", appABC (some 0)) ∧
    delete_task (.error "network unreachable") (.ok ()) 2 (appABC (some 0))
      = (.error "network unreachable", appABC (some 0)) :=
  add_update_delete_atomic_on_remote_failure (appABC (some 0)) "x" 2
    "network unreachable" (.ok ()) (.ok ()) (.ok ())
    (by decide) (by decide) (by decide)

/-- C3: when the remote `list()` call of `sync_tasks` fails, the whole state
— task collection, id allocator, selection and durable store — is exactly
the pre-state and the error is returned as a value (the function is total,
so no exception terminates the process; `main` continues with whatever the
cache supplied). -/
theorem sync_all_atomic_on_remote_failure (e : String)
    (saveR : Except String Unit) (s : App) :
    sync_tasks (.error e) saveR s = (.error e, s) := rfl

/-- C5: a blank (empty or all-whitespace) title makes `add_task` a
successful no-op: for every outcome of the remote and store oracles
(so in particular no remote call is needed), the result is `Ok` and the
state — collection, selection, store — is unchanged. -/
theorem add_blank_title_noop (createR : Except String Task)
    (saveR : Except String Unit) (title : String) (s : App)
    (h : isBlank title = true) :
    add_task createR saveR title s = (.ok (), s) := by
  simp [add_task, h]

/-- Witness for C5 on the empty and the all-whitespace title, with both
oracles failing (showing neither is consulted). -/
theorem add_blank_title_noop_witness :
    add_task (.error "offline") (.error "disk full") "" (appABC (some 0))
      = (.ok (), appABC (some 0)) ∧
    add_task (.error "offline") (.error "disk full") "   " (appABC (some 0))
      = (.ok (), appABC (some 0)) :=
  ⟨add_blank_title_noop (.error "offline") (.error "disk full") "" (appABC (some 0))
      (by decide),
   add_blank_title_noop (.error "offline") (.error "disk full") "   " (appABC (some 0))
      (by decide)⟩

/-- C6: selection repair on successful delete.  With `[A,B,C]` selected at
index 1 (`B`): deleting `B` leaves selection at index 0 (`A`); deleting `A`
leaves selection at index 0, which is `B`'s new index; deleting at an index
strictly after the selected one leaves the selection unchanged; deleting
the only remaining task clears the selection. -/
theorem delete_selection_repair :
    (delete_task (.ok ()) (.ok ()) 2 (appABC (some 1))).2.selected = some 0 ∧
    (delete_task (.ok ()) (.ok ()) 2 (appABC (some 1))).2.tasks = [tA, tC] ∧
    (delete_task (.ok ()) (.ok ()) 1 (appABC (some 1))).2.selected = some 0 ∧
    (delete_task (.ok ()) (.ok ()) 1 (appABC (some 1))).2.tasks = [tB, tC] ∧
    (∀ (s : App) (id sel index : Nat), s.selected = some sel →
      position (fun t => t.id == id) s.tasks = some index → sel < index →
      (delete_task (.ok ()) (.ok ()) id s).2.selected = some sel) ∧
    (∀ (s : App) (t : Task), s.tasks = [t] →
      (delete_task (.ok ()) (.ok ()) t.id s).2.selected = none) := by
  refine ⟨by decide, by decide, by decide, by decide, ?_, ?_⟩
  · intro s id sel index hsel hpos hlt
    have hlen : index < s.tasks.length := position_lt_length hpos
    unfold delete_task
    rw [hpos]
    dsimp only
    have hemp : (s.tasks.eraseIdx index).isEmpty = false := by
      apply isEmpty_false_of_length_pos
      rw [length_eraseIdx_lt _ _ hlen]
      omega
    have hnotle : ¬ index ≤ sel := by omega
    simp only [hemp, Bool.false_eq_true, if_false, hsel, Option.getD_some,
      hnotle]
  · intro s t hts
    unfold delete_task
    rw [hts]
    simp [position]

/-- Witness for C6's two general clauses: deleting `C` (index 2) while `A`
(index 0) is selected keeps the selection; deleting the single task of a
one-element registry clears it. -/
theorem delete_selection_repair_witness :
    (delete_task (.ok ()) (.ok ()) 3 (appABC (some 0))).2.selected = some 0 ∧
    (delete_task (.ok ()) (.ok ()) 1
        { tasks := [tA], next_id := 2, selected := some 0, mode := .Normal,
          input_buffer := "", store := [tA] }).2.selected = none := by
  refine ⟨?_, ?_⟩
  · exact delete_selection_repair.2.2.2.2.1 (appABC (some 0)) 3 0 2 rfl
      (by decide) (by decide)
  · exact delete_selection_repair.2.2.2.2.2
      { tasks := [tA], next_id := 2, selected := some 0, mode := .Normal,
        input_buffer := "", store := [tA] } tA rfl

/-- C9 counterexample: a storage error while loading at startup is NOT
tolerated — `App::new` propagates it (`cache.load_tasks()?`); startup does
not succeed with an empty registry. -/
theorem startup_load_error_cex :
    App.new (.error "StorageError: unable to open database file")
      = .error "StorageError: unable to open database file" := rfl

/-- C9 amended: a storage error while loading the durable store at startup
propagates out of initialisation: `App::new` fails with that same error and
builds no registry at all (there is no fallback to an empty state). -/
theorem startup_load_error_propagates (e : String) :
    App.new (.error e) = .error e := rfl

/-- C10: when the durable store loads successfully but is empty, startup
populates the registry with the three placeholders "Buy Milk", "Write Code"
and "Fix Bugs" with local ids 1,2,3, no remote id, `checked = false`,
selection at index 0 and the id allocator at 4 (and nothing yet persisted). -/
theorem startup_empty_cache_placeholders :
    App.new (.ok []) =
      .ok { tasks := [⟨1, none, "Buy Milk", false⟩, ⟨2, none, "Write Code", false⟩,
                      ⟨3, none, "Fix Bugs", false⟩],
            next_id := 4, selected := some 0, mode := .Normal,
            input_buffer := "", store := [] } := rfl

/-- C2 counterexample: the selection invariant is NOT preserved by
`sync_tasks`.  From the invariant-satisfying (and reachable) state with
three tasks and selection at index 2, a successful sync whose fetch returns
a single task leaves the selection at index 2 over a one-element collection
(the source only repairs a `None` selection). -/
theorem sync_breaks_selection_invariant_cex :
    selOk (appABC (some 2)) ∧
    (sync_tasks (.ok [⟨0, some "r9", "Z", false⟩]) (.ok ())
        (appABC (some 2))).1 = .ok () ∧
    ¬ selOk (sync_tasks (.ok [⟨0, some "r9", "Z", false⟩]) (.ok ())
        (appABC (some 2))).2 :=
  ⟨by decide, rfl, by decide⟩

/-- C2 amended: the selection invariant is preserved by startup, add,
update, select-next and select-previous unconditionally; by delete when the
durable save succeeds; and by sync_all when the durable save succeeds and
additionally the previously selected index, when present, is a valid index
into the fetched list (otherwise the stale selection survives out of
range). -/
theorem selection_invariant_preservation_amended
    (loaded fetched : List Task) (t : App) (createR : Except String Task)
    (updR delR saveA saveU : Except String Unit) (title : String) (id : Nat)
    (s : App)
    (hs : selOk s)
    (hnew : App.new (.ok loaded) = .ok t)
    (hfit : s.selected = none ∨ ∃ i, s.selected = some i ∧ i < fetched.length) :
    selOk t ∧
    selOk (add_task createR saveA title s).2 ∧
    selOk (update_task updR saveU id title s).2 ∧
    selOk (delete_task delR (.ok ()) id s).2 ∧
    selOk (sync_tasks (.ok fetched) (.ok ()) s).2 ∧
    selOk (next s) ∧
    selOk (previous s) :=
  ⟨selOk_new loaded t hnew, selOk_add createR saveA title s hs,
   selOk_update updR saveU id title s hs, selOk_delete delR id s hs,
   selOk_sync fetched s hs hfit, selOk_next s hs, selOk_previous s hs⟩

/-- Witness for amended C2 at concrete inputs (delete and a sync whose
fetch is at least as long as the selected index requires). -/
theorem selection_invariant_preservation_amended_witness :
    selOk (delete_task (.ok ()) (.ok ()) 2 (appABC (some 1))).2 ∧
    selOk (sync_tasks (.ok [tA, tB]) (.ok ()) (appABC (some 1))).2 := by
  have h := selection_invariant_preservation_amended [tA] [tA, tB]
      { tasks := [tA], next_id := 2, selected := some 0, mode := .Normal,
        input_buffer := "", store := [tA] }
      (.ok tC) (.ok ()) (.ok ()) (.ok ()) (.ok ()) "x" 2 (appABC (some 1))
      (by decide) rfl (Or.inr ⟨1, rfl, by decide⟩)
  exact ⟨h.2.2.2.1, h.2.2.2.2.1⟩

/-- C4: a successful `sync_tasks` on a registry whose allocator holds `M`
assigns the `N` fetched tasks the local ids `M, M+1, …, M+N-1` in the order
received (titles preserved in order), advances the allocator to `M+N`, and
assigns no id ever held before: given that every previously held id lies
below the allocator (the process invariant), the new ids avoid all of them,
and the invariant is re-established, so the freshness argument repeats
across any number of resyncs. -/
theorem sync_all_assigns_fresh_sequential_ids
    (s : App) (fetched : List Task) (hist : List Nat)
    (hhist : ∀ i ∈ hist, i < s.next_id) :
    (sync_tasks (.ok fetched) (.ok ()) s).2.tasks.map Task.id
      = List.range' s.next_id fetched.length ∧
    (sync_tasks (.ok fetched) (.ok ()) s).2.tasks.map Task.title
      = fetched.map Task.title ∧
    (sync_tasks (.ok fetched) (.ok ()) s).2.next_id
      = s.next_id + fetched.length ∧
    (∀ i ∈ hist, i ∉ (sync_tasks (.ok fetched) (.ok ()) s).2.tasks.map Task.id) ∧
    (∀ i, i ∈ hist ∨ i ∈ (sync_tasks (.ok fetched) (.ok ()) s).2.tasks.map Task.id →
      i < (sync_tasks (.ok fetched) (.ok ()) s).2.next_id) := by
  have htasks := sync_ok_tasks fetched (.ok ()) s
  have hnext := sync_ok_next_id fetched (.ok ()) s
  rw [htasks, hnext, assignIds_length, assignIds_map_id, assignIds_map_title]
  refine ⟨rfl, rfl, rfl, ?_, ?_⟩
  · intro i hi hmem
    rw [List.mem_range'_1] at hmem
    have := hhist i hi
    omega
  · intro i hmem
    rcases hmem with hmem | hmem
    · have := hhist i hmem
      omega
    · rw [List.mem_range'_1] at hmem
      omega

/-- Witness for C4: syncing two remote tasks into the three-task fixture
(allocator at 4, history of ids 1,2,3) assigns ids 4 and 5 and moves the
allocator to 6. -/
theorem sync_all_assigns_fresh_sequential_ids_witness :
    (sync_tasks (.ok [⟨0, some "rZ", "Z", false⟩, ⟨0, some "rW", "W", true⟩])
        (.ok ()) (appABC (some 0))).2.tasks.map Task.id = List.range' 4 2 ∧
    (sync_tasks (.ok [⟨0, some "rZ", "Z", false⟩, ⟨0, some "rW", "W", true⟩])
        (.ok ()) (appABC (some 0))).2.next_id = 4 + 2 := by
  have h := sync_all_assigns_fresh_sequential_ids (appABC (some 0))
      [⟨0, some "rZ", "Z", false⟩, ⟨0, some "rW", "W", true⟩] [1, 2, 3]
      (by decide)
  exact ⟨h.1, h.2.2.1⟩

/-- C7 counterexample: Esc (the "cancel" key) is dispatched to
`exit_insert_mode` exactly like Enter, so a cancel with the non-blank buffer
"X" DOES call the Synchronizer: from an empty registry in InsertAdd mode,
pressing Esc adds a task. -/
theorem esc_triggers_mutation_cex :
    (insertStep .esc (.ok ⟨0, some "r9", "X", false⟩) (.ok ()) (.ok ())
        { tasks := [], next_id := 1, selected := none, mode := .InsertAdd,
          input_buffer := "X", store := [] }).2.tasks
      = [⟨1, some "r9", "X", false⟩] := by decide

/-- C7 amended: the commit key (Enter) and the cancel key (Esc) behave
identically — both exit insert mode through `exit_insert_mode`, and either
one triggers the add/update mutation exactly when the buffer is non-blank
(there is no pure cancel).  With a blank buffer no mutation happens for any
oracle outcome; when the triggered mutation succeeds, the mode returns to
`Normal` with the buffer cleared. -/
theorem insert_commit_cancel_amended
    (createR : Except String Task) (updR saveR : Except String Unit) (s : App) :
    insertStep .esc createR updR saveR s
      = insertStep .enter createR updR saveR s ∧
    (isBlank s.input_buffer = true →
      insertStep .enter createR updR saveR s
        = (.ok (), { s with mode := .Normal, input_buffer := "" })) ∧
    (∀ t : Task, s.mode = .InsertAdd → isBlank s.input_buffer = false →
      insertStep .enter (.ok t) updR (.ok ()) s
        = (.ok (), { s with
            tasks := s.tasks ++ [{ t with id := s.next_id }],
            next_id := s.next_id + 1,
            selected := some ((s.tasks ++ [{ t with id := s.next_id }]).length - 1),
            store := s.tasks ++ [{ t with id := s.next_id }],
            mode := .Normal, input_buffer := "" })) ∧
    (∀ (i : Nat) (task : Task), s.mode = .InsertEdit →
      isBlank s.input_buffer = false →
      s.selected = some i → s.tasks.get? i = some task →
      insertStep .enter createR (.ok ()) (.ok ()) s
        = (.ok (), { s with
            tasks := updateFirst task.id s.input_buffer s.tasks,
            store := updateFirst task.id s.input_buffer s.tasks,
            mode := .Normal, input_buffer := "" })) := by
  refine ⟨rfl, ?_, ?_, ?_⟩
  · intro h
    simp [insertStep, exit_insert_mode, h]
  · intro t hmode hb
    simp [insertStep, exit_insert_mode, hmode, hb, add_task]
  · intro i task hmode hb hsel hget
    have hmem : task ∈ s.tasks := List.get?_mem hget
    have hex : ∃ x ∈ s.tasks, x.id = task.id := ⟨task, hmem, rfl⟩
    have hget' : s.tasks[i]? = some task := by
      rw [← List.get?_eq_getElem?]
      exact hget
    simp [insertStep, exit_insert_mode, hmode, hb, hsel, hget', update_task,
      hex]

/-- Witness for amended C7: committing "Buy milk" from InsertAdd over an
empty registry appends the remote-confirmed task and resets the mode. -/
theorem insert_commit_cancel_amended_witness :
    insertStep .enter (.ok ⟨0, some "r1", "Buy milk", false⟩) (.ok ()) (.ok ())
        { tasks := [], next_id := 1, selected := none, mode := .InsertAdd,
          input_buffer := "Buy milk", store := [] }
      = (.ok (), { tasks := [⟨1, some "r1", "Buy milk", false⟩], next_id := 2,
                   selected := some 0, mode := .Normal, input_buffer := "",
                   store := [⟨1, some "r1", "Buy milk", false⟩] }) := by
  have h := (insert_commit_cancel_amended
      (.ok ⟨0, some "r1", "Buy milk", false⟩) (.ok ()) (.ok ())
      { tasks := [], next_id := 1, selected := none, mode := .InsertAdd,
        input_buffer := "Buy milk", store := [] }).2.2.1
      ⟨0, some "r1", "Buy milk", false⟩ rfl (by decide)
  exact h

/-- C8 counterexample: the persistence round trip is NOT lossless for every
task list.  A task without a remote id (here the placeholder "Buy Milk")
violates the `todoist_id TEXT NOT NULL` column, so `save_tasks` fails and a
subsequent load returns the empty list; and a list whose ids are not
ascending comes back reordered by the `id INTEGER PRIMARY KEY` scan
order. -/
theorem persistence_roundtrip_cex :
    (save_tasks [Task.mk' 1 "Buy Milk" false]).1
      = .error "NOT NULL constraint failed: tasks.todoist_id" ∧
    load_tasks (save_tasks [Task.mk' 1 "Buy Milk" false]).2
      ≠ [Task.mk' 1 "Buy Milk" false] ∧
    load_tasks (save_tasks [tB, tA]).2 ≠ [tB, tA] ∧
    load_tasks (save_tasks [tB, tA]).2 = [tA, tB] :=
  ⟨rfl, by decide, by decide, by decide⟩

/-- C8 amended: for every task list whose local ids are strictly increasing
and whose tasks all carry a remote id — which holds for every list the app
persists after a successful sync — `save_tasks` succeeds and `load_tasks`
returns exactly the same list: same local ids, remote ids, titles and
completion flags, in the same order. -/
theorem persistence_roundtrip_amended (l : List Task)
    (hsorted : l.Pairwise (fun a b => a.id < b.id))
    (hsome : ∀ t ∈ l, t.todoist_id.isSome = true) :
    (save_tasks l).1 = .ok () ∧ load_tasks (save_tasks l).2 = l := by
  have h := saveLoop_ok l [] hsorted hsome (by intro x hx; simp at hx)
  unfold save_tasks
  rw [h]
  exact ⟨rfl, load_map_encode l hsome⟩

/-- Witness for amended C8 on the two-task fixture. -/
theorem persistence_roundtrip_amended_witness :
    (save_tasks [tA, tB]).1 = .ok () ∧
    load_tasks (save_tasks [tA, tB]).2 = [tA, tB] :=
  persistence_roundtrip_amended [tA, tB] (by decide) (by decide)

end TodoistCli
